import Mathlib

/-!
Verification of the `ifAliasPersist.py` net-snmp pass-persist sub-agent.

The development shallowly embeds the program's pure core:

* Python strings are modelled as `List Char`; `str.rstrip()` / the
  whitespace stripping done by `int()` are modelled on ASCII whitespace.
* `int(s)` (base 10) is modelled by `pythonInt`: optional surrounding
  whitespace, an optional `+`/`-` sign, then decimal digits in which single
  underscores may separate digit groups (CPython's accepted grammar).
* Exceptions become `Except` values.  The three per-request exception
  classes caught by `SNMPCommandHandler.handle` (`ValueError`,
  `IndexError`, `KeyError`) form `PyErr`; the fatal `RuntimeError`s
  (unknown command, and the PEP-479 `RuntimeError` produced when the
  argument iterator is exhausted inside the generator expression) form
  `Fatal`.
* The interface database (`pyroute2` NDB/IPDB, or the namedtuple stub from
  the tests) is a finite association list from keys to interface records;
  `db.interfaces.values()` is the list of records, `db.interfaces[k]` is
  association-list lookup raising `KeyError` when absent.
-/

/-- ASCII whitespace, the characters stripped by `str.rstrip()` and by
`int()` on ASCII input. -/
def isPyWs (c : Char) : Bool :=
  c = ' ' || c = '\t' || c = '\n' || c = '\r' || c = '\x0b' || c = '\x0c'

/-- Python `str.rstrip()`: remove trailing whitespace. -/
def pyRstrip (l : List Char) : List Char :=
  ((l.reverse).dropWhile isPyWs).reverse

/-- Python `str.strip()`: remove leading and trailing whitespace, the
normalisation `int()` applies before parsing. -/
def pyStrip (l : List Char) : List Char :=
  (pyRstrip l).dropWhile isPyWs

/-- Numeric value of a decimal digit character. -/
def dval (c : Char) : Nat := c.toNat - '0'.toNat

/-- Value of a list of decimal digit characters, most significant first. -/
def digitsToNat (l : List Char) : Nat :=
  l.foldl (fun acc c => 10 * acc + dval c) 0

/-- Validator for the tail of a CPython integer-literal digit group:
digits in which a single underscore must sit between two digits.  The
flag records whether the previous character was an underscore, in which
case another underscore (or the end of the string) is rejected. -/
def okTailFrom : Bool → List Char → Bool
  | prevUnd, [] => !prevUnd
  | prevUnd, c :: rest =>
    if c = '_' then !prevUnd && okTailFrom true rest
    else c.isDigit && okTailFrom false rest

/-- Validator for the characters after the leading digit of a CPython
integer literal. -/
def okTail (l : List Char) : Bool := okTailFrom false l

/-- Validator for the digit part of a CPython integer literal: nonempty,
starts with a digit, single underscores only between digits. -/
def okBody : List Char → Bool
  | [] => false
  | c :: rest => c.isDigit && okTail rest

/-- Parse an unsigned CPython digit sequence (underscores allowed between
digits), or fail. -/
def pyDigits (l : List Char) : Option Nat :=
  if okBody l then some (digitsToNat (l.filter (fun c => c != '_'))) else none

/-- Sign handling of Python's `int(s)`: an optional leading `+`/`-`
followed by a digit sequence. -/
def pySigned : List Char → Option Int
  | [] => none
  | c :: rest =>
    if c = '+' then (pyDigits rest).map (fun m => (m : Int))
    else if c = '-' then (pyDigits rest).map (fun m => -(m : Int))
    else (pyDigits (c :: rest)).map (fun m => (m : Int))

/-- Python's `int(s)` for base 10: strip surrounding whitespace, then an
optional sign followed by a digit sequence.  `none` models `ValueError`. -/
def pythonInt (l : List Char) : Option Int :=
  pySigned (pyStrip l)

/-- The fixed base OID `.1.3.6.1.2.1.31.1.1.1.18` as a character list. -/
def BASE_OID : List Char := ".1.3.6.1.2.1.31.1.1.1.18".data

/-- Python `a.startswith(p)` on character lists. -/
def startswith : List Char → List Char → Bool
  | _, [] => true
  | [], _ :: _ => false
  | c :: cs, p :: ps => c = p && startswith cs ps

/-- The per-request exception classes caught by
`SNMPCommandHandler.handle`: `ValueError` (malformed OID), `IndexError`
(no next element), `KeyError` (interface not found). -/
inductive PyErr where
  | valueError
  | indexError
  | keyError
deriving DecidableEq, Repr

/-- Embedding of `oid_to_ifidx`: `BASE_OID` itself decodes to the sentinel
0; an OID extending `BASE_OID + "."` decodes by Python `int()` on the
remaining suffix; everything else raises `ValueError`. -/
def oid_to_ifidx (oid : List Char) : Except PyErr Int :=
  if oid = BASE_OID then .ok 0
  else if !(startswith oid (BASE_OID ++ ['.'])) then .error .valueError
  else
    match pythonInt (oid.drop (BASE_OID.length + 1)) with
    | none => .error .valueError
    | some n => .ok n

example : oid_to_ifidx BASE_OID = .ok 0 := rfl
example : oid_to_ifidx ".1.3.6.1.2.1.31.1.1.1.18.123".data = .ok 123 := rfl
example : oid_to_ifidx ".1.3.6.1.2.1.31.1.1.1.18.a".data = .error .valueError := rfl
example : oid_to_ifidx ".1.3.6.1.2.1".data = .error .valueError := rfl
example : oid_to_ifidx ".1.3.6.1.2.1.31.1.1.1.18.-5".data = .ok (-5) := rfl
example : oid_to_ifidx ".1.3.6.1.2.1.31.1.1.1.18.1.2".data = .error .valueError := rfl
example : pythonInt " 5 ".data = some 5 := by decide
example : pythonInt "1_2".data = some 12 := by decide
example : pythonInt "1__2".data = none := by decide
example : pythonInt "+7".data = some 7 := by decide
example : pythonInt "".data = none := by decide

/-- Decimal rendering worker, structurally recursive on a fuel bound so
that it reduces inside the kernel; any `fuel > n` gives the rendering. -/
def natDigitsAux : Nat → Nat → List Char
  | 0, _ => []
  | fuel + 1, n =>
    if n < 10 then [Nat.digitChar n]
    else natDigitsAux fuel (n / 10) ++ [Nat.digitChar (n % 10)]

/-- Decimal rendering of a natural number, most significant digit first
(the digit string produced by Python's `str` on a non-negative `int`). -/
def natDigits (n : Nat) : List Char := natDigitsAux (n + 1) n

/-- Python `str` on an `int`: a minus sign before the digits when
negative. -/
def intRender (i : Int) : List Char :=
  if i < 0 then '-' :: natDigits (-i).toNat else natDigits i.toNat

example : natDigits 123 = ['1', '2', '3'] := by decide
example : intRender (-45) = ['-', '4', '5'] := by decide

/-- Python `sorted` on integers: the sorted permutation of the input list
(unique for a linear order, so agreeing with CPython's stable sort). -/
def pySorted (l : List Int) : List Int := l.insertionSort (· ≤ ·)

/-- Python `bisect.bisect` (= `bisect_right`) applied to a sorted list:
the insertion point after any copies of `x`, i.e. the length of the
prefix of elements `≤ x`. -/
def bisect (a : List Int) (x : Int) : Nat :=
  (a.takeWhile (fun y => decide (y ≤ x))).length

/-- Embedding of `get_next_ifidx`: sort the snapshot of indices and take
the element just after the insertion point of `ifidx`; an out-of-range
access models the `IndexError` raised when `ifidx` is already maximal. -/
def get_next_ifidx (ifidxs : List Int) (ifidx : Int) : Except PyErr Int :=
  let sorted_ifidxs := pySorted ifidxs
  match sorted_ifidxs[bisect sorted_ifidxs ifidx]? with
  | some v => .ok v
  | none => .error .indexError

example : get_next_ifidx [1, 1, 3] 1 = .ok 3 := rfl
example : get_next_ifidx [1, 3] 2 = .ok 3 := rfl
example : get_next_ifidx [1, 3] 3 = .error .indexError := rfl
example : get_next_ifidx [] 0 = .error .indexError := rfl

/-- One interface record as the database exposes it: its `index`
attribute and its (possibly unset) `ifalias` attribute. -/
structure Iface where
  index : Int
  ifalias : Option (List Char)
deriving DecidableEq, Repr

/-- The interface database handle: `interfaces` is a finite mapping,
modelled as an association list from keys to interface records. -/
structure DB where
  interfaces : List (Int × Iface)
deriving DecidableEq, Repr

/-- Mapping lookup `db.interfaces[k]` (`none` models `KeyError`). -/
def dbFind (db : DB) (k : Int) : Option Iface :=
  (db.interfaces.find? (fun p => p.1 = k)).map (fun p => p.2)

/-- The generator `(iface['index'] for iface in self.db.interfaces.values())`:
the `index` attribute of every record in the snapshot. -/
def dbIndices (db : DB) : List Int :=
  db.interfaces.map (fun p => p.2.index)

/-- Embedding of `SNMPCommandHandler.get_ifalias`: look the interface up
by index (`KeyError` when absent), normalise a falsy alias (`None` or the
empty string) to the empty string via `or ''`, and render the three-line
reply `f'\x7bBASE_OID\x7d.\x7bifidx\x7d\nstring\n\x7bifalias\x7d'`. -/
def get_ifalias (db : DB) (ifidx : Int) : Except PyErr (List Char) :=
  match dbFind db ifidx with
  | none => .error .keyError
  | some iface =>
      .ok (BASE_OID ++ '.' :: intRender ifidx ++
        '\n' :: "string".data ++ '\n' :: iface.ifalias.getD [])

/-- Embedding of `handle_PING`. -/
def handle_PING : Except PyErr (List Char) := .ok "PONG".data

/-- Embedding of `handle_set`: the value is accepted but discarded and
the reply is always `not-writable`; nothing is written to the database. -/
def handle_set (oid value : List Char) : Except PyErr (List Char) :=
  .ok "not-writable".data

/-- Embedding of `handle_get`: decode the OID and fetch the alias. -/
def handle_get (db : DB) (oid : List Char) : Except PyErr (List Char) :=
  (oid_to_ifidx oid).bind (get_ifalias db)

/-- Embedding of `handle_getnext`: decode the OID, find the next greater
index among the current snapshot, and fetch that interface's alias. -/
def handle_getnext (db : DB) (oid : List Char) : Except PyErr (List Char) :=
  (oid_to_ifidx oid).bind (fun ifidx =>
    (get_next_ifidx (dbIndices db) ifidx).bind (get_ifalias db))

/-- The fatal `RuntimeError`s of `SNMPCommandHandler.handle`: an unknown
command verb, or the PEP-479 `RuntimeError` raised when the argument
iterator is exhausted inside the generator expression.  Neither is in the
caught class tuple `(ValueError, IndexError, KeyError)`, so both escape
the dispatch boundary and end the command loop. -/
inductive Fatal where
  | unknownCommand (cmd : List Char)
  | stopIterationInGenerator
deriving DecidableEq, Repr

/-- Number of parameters `inspect.signature` reports for the handler of
each known command (`self` excluded); `none` models the `AttributeError`
turned into `RuntimeError("Unknown command: ...")`. -/
def arity (cmd : List Char) : Option Nat :=
  if cmd = "PING".data then some 0
  else if cmd = "set".data then some 2
  else if cmd = "get".data then some 1
  else if cmd = "getnext".data then some 1
  else none

/-- The `except (ValueError, IndexError, KeyError): return 'NONE'`
boundary: any of the three per-request failures becomes the `NONE`
reply, a success passes through. -/
def catchPR (r : Except PyErr (List Char)) : List Char :=
  match r with
  | .ok s => s
  | .error _ => "NONE".data

/-- Embedding of `SNMPCommandHandler.handle`: resolve the handler from
the command token (unknown tokens are fatal), draw exactly as many
elements from the argument stream as the handler has parameters (running
out is the fatal PEP-479 `RuntimeError`), `rstrip` each drawn element,
call the handler, and map its per-request failures to `NONE`.  The result
pairs the reply with the arguments left unconsumed. -/
def handle (db : DB) (cmd : List Char) (args : List (List Char)) :
    Except Fatal (List Char × List (List Char)) :=
  if cmd = "PING".data then
    .ok (catchPR handle_PING, args)
  else if cmd = "set".data then
    match args with
    | a :: b :: rest => .ok (catchPR (handle_set (pyRstrip a) (pyRstrip b)), rest)
    | _ => .error .stopIterationInGenerator
  else if cmd = "get".data then
    match args with
    | a :: rest => .ok (catchPR (handle_get db (pyRstrip a)), rest)
    | [] => .error .stopIterationInGenerator
  else if cmd = "getnext".data then
    match args with
    | a :: rest => .ok (catchPR (handle_getnext db (pyRstrip a)), rest)
    | [] => .error .stopIterationInGenerator
  else .error (.unknownCommand cmd)

/-- The test database `\x7b1: 'Loopback', 3: 'Production', 4: 'Internal'\x7d`
from `tests.py`. -/
def testDB : DB :=
  ⟨[(1, ⟨1, some "Loopback".data⟩),
    (3, ⟨3, some "Production".data⟩),
    (4, ⟨4, some "Internal".data⟩)]⟩

example : handle testDB "PING".data [] = .ok ("PONG".data, []) := rfl
example : handle testDB "set".data [".1.3.6.1.2.1.31.1.1.1.18.1".data, "Test".data]
    = .ok ("not-writable".data, []) := rfl
example : handle testDB "get".data [".1.3.6.1.2.1.31.1.1.1.18.1".data]
    = .ok (".1.3.6.1.2.1.31.1.1.1.18.1\nstring\nLoopback".data, []) := rfl
example : handle testDB "getnext".data [".1.3.6.1.2.1.31.1.1.1.18.3".data]
    = .ok (".1.3.6.1.2.1.31.1.1.1.18.4\nstring\nInternal".data, []) := rfl
example : handle testDB "getnext".data [BASE_OID]
    = .ok (".1.3.6.1.2.1.31.1.1.1.18.1\nstring\nLoopback".data, []) := rfl
example : handle testDB "getnext".data [".1.3.6.1.2.1.31.1.1.1.18.4".data]
    = .ok ("NONE".data, []) := rfl
example : handle testDB "get".data [".1.3.6.1.2.1.31.1.1.1.18.1\n".data]
    = .ok (".1.3.6.1.2.1.31.1.1.1.18.1\nstring\nLoopback".data, []) := rfl
example : handle testDB "invalid".data [] = .error (.unknownCommand "invalid".data) := rfl
example : handle testDB "set".data ["x".data] = .error .stopIterationInGenerator := rfl

/-! ### Lemmas about bind, the reply shape and the `NONE` boundary -/

lemma except_bind_ok {ε α β : Type} {x : Except ε α} {f : α → Except ε β} {b : β}
    (h : x.bind f = .ok b) : ∃ a, x = .ok a ∧ f a = .ok b := by
  cases x with
  | error e => exact absurd h (by simp [Except.bind])
  | ok a => exact ⟨a, rfl, by simpa [Except.bind] using h⟩

lemma base_append_ne_NONE (x : List Char) : BASE_OID ++ x ≠ "NONE".data := by
  intro h
  have h' : ('.' :: ("1.3.6.1.2.1.31.1.1.1.18".data ++ x)) = 'N' :: "ONE".data := h
  injection h' with hhead _
  exact absurd hhead (by decide)

lemma get_ifalias_ok_ne {db : DB} {i : Int} {s : List Char}
    (h : get_ifalias db i = .ok s) : s ≠ "NONE".data := by
  unfold get_ifalias at h
  cases hf : dbFind db i with
  | none => rw [hf] at h; exact absurd h (by simp)
  | some iface =>
    rw [hf] at h
    injection h with hs
    rw [← hs]
    exact base_append_ne_NONE _

lemma handle_get_ok_ne {db : DB} {a s : List Char}
    (h : handle_get db a = .ok s) : s ≠ "NONE".data := by
  unfold handle_get at h
  obtain ⟨j, _, h2⟩ := except_bind_ok h
  exact get_ifalias_ok_ne h2

lemma handle_getnext_ok_ne {db : DB} {a s : List Char}
    (h : handle_getnext db a = .ok s) : s ≠ "NONE".data := by
  unfold handle_getnext at h
  obtain ⟨j, _, h2⟩ := except_bind_ok h
  obtain ⟨k, _, h3⟩ := except_bind_ok h2
  exact get_ifalias_ok_ne h3

lemma catchPR_eq_NONE_iff {r : Except PyErr (List Char)}
    (hok : ∀ s, r = .ok s → s ≠ "NONE".data) :
    catchPR r = "NONE".data ↔ ∃ e, r = .error e := by
  cases r with
  | ok s =>
    simp only [catchPR]
    constructor
    · intro h
      exact absurd h (hok s rfl)
    · rintro ⟨e, he⟩
      exact Except.noConfusion he
  | error e =>
    simp only [catchPR]
    constructor
    · intro _
      exact ⟨e, rfl⟩
    · intro _
      trivial

/-! ### Lemmas about decimal rendering and `pythonInt` -/

lemma dval_digitChar : ∀ m < 10, dval (Nat.digitChar m) = m := by decide

lemma isDigit_digitChar : ∀ m < 10, (Nat.digitChar m).isDigit = true := by decide

lemma digitsToNat_append (l : List Char) (c : Char) :
    digitsToNat (l ++ [c]) = 10 * digitsToNat l + dval c := by
  simp [digitsToNat, List.foldl_append]

lemma natDigitsAux_isDigit :
    ∀ fuel n, n < fuel → ∀ c ∈ natDigitsAux fuel n, c.isDigit = true := by
  intro fuel
  induction fuel with
  | zero => intro n h; omega
  | succ f ih =>
    intro n h c hc
    by_cases h10 : n < 10
    · simp [natDigitsAux, h10] at hc
      subst hc
      exact isDigit_digitChar n h10
    · simp [natDigitsAux, h10] at hc
      rcases hc with hc | hc
      · exact ih (n / 10) (by omega) c hc
      · subst hc
        exact isDigit_digitChar (n % 10) (Nat.mod_lt _ (by omega))

lemma natDigitsAux_ne_nil : ∀ fuel n, n < fuel → natDigitsAux fuel n ≠ [] := by
  intro fuel n h
  cases fuel with
  | zero => omega
  | succ f =>
    by_cases h10 : n < 10 <;> simp [natDigitsAux, h10]

lemma digitsToNat_natDigitsAux :
    ∀ fuel n, n < fuel → digitsToNat (natDigitsAux fuel n) = n := by
  intro fuel
  induction fuel with
  | zero => intro n h; omega
  | succ f ih =>
    intro n h
    by_cases h10 : n < 10
    · simp [natDigitsAux, h10, digitsToNat]
      exact dval_digitChar n h10
    · rw [natDigitsAux, if_neg h10, digitsToNat_append,
        ih (n / 10) (by omega), dval_digitChar (n % 10) (Nat.mod_lt _ (by omega))]
      omega

lemma natDigits_isDigit (n : Nat) : ∀ c ∈ natDigits n, c.isDigit = true :=
  natDigitsAux_isDigit (n + 1) n (by omega)

lemma natDigits_ne_nil (n : Nat) : natDigits n ≠ [] :=
  natDigitsAux_ne_nil (n + 1) n (by omega)

lemma digitsToNat_natDigits (n : Nat) : digitsToNat (natDigits n) = n :=
  digitsToNat_natDigitsAux (n + 1) n (by omega)

lemma isDigit_not_special {c : Char} (h : c.isDigit = true) :
    c ≠ '_' ∧ c ≠ '+' ∧ c ≠ '-' ∧ isPyWs c = false ∧ c ≠ '\n' := by
  refine ⟨?_, ?_, ?_, ?_, ?_⟩
  · intro hc; subst hc; simp [Char.isDigit] at h
  · intro hc; subst hc; simp [Char.isDigit] at h
  · intro hc; subst hc; simp [Char.isDigit] at h
  · revert h
    simp only [isPyWs, Bool.or_eq_true, decide_eq_true_eq]
    intro h
    by_contra hw
    simp only [Bool.not_eq_false, Bool.or_eq_true, decide_eq_true_eq] at hw
    rcases hw with ((((hw | hw) | hw) | hw) | hw) | hw <;>
      (subst hw; simp [Char.isDigit] at h)
  · intro hc; subst hc; simp [Char.isDigit] at h

lemma dropWhile_eq_self_of_all {p : Char → Bool} :
    ∀ l : List Char, (∀ c ∈ l, p c = false) → l.dropWhile p = l := by
  intro l h
  cases l with
  | nil => rfl
  | cons c cs =>
    rw [List.dropWhile_cons, if_neg]
    simp [h c (List.mem_cons_self c cs)]

lemma pyStrip_of_digits {l : List Char} (h : ∀ c ∈ l, c.isDigit = true) :
    pyStrip l = l := by
  have hws : ∀ c ∈ l, isPyWs c = false := fun c hc =>
    (isDigit_not_special (h c hc)).2.2.2.1
  have h1 : pyRstrip l = l := by
    rw [pyRstrip, dropWhile_eq_self_of_all _ (by
      intro c hc
      exact hws c (List.mem_reverse.mp hc)), List.reverse_reverse]
  rw [pyStrip, h1, dropWhile_eq_self_of_all _ hws]

lemma okTail_of_digits : ∀ l : List Char, (∀ c ∈ l, c.isDigit = true) → okTail l = true := by
  intro l
  induction l with
  | nil => intro; rfl
  | cons c cs ih =>
    intro h
    have hc := h c (List.mem_cons_self c cs)
    show okTailFrom false (c :: cs) = true
    rw [okTailFrom, if_neg (isDigit_not_special hc).1]
    simp only [Bool.and_eq_true]
    exact ⟨hc, ih fun d hd => h d (List.mem_cons_of_mem c hd)⟩

lemma okBody_of_digits {l : List Char} (hne : l ≠ []) (h : ∀ c ∈ l, c.isDigit = true) :
    okBody l = true := by
  cases l with
  | nil => exact absurd rfl hne
  | cons c cs =>
    rw [okBody]
    simp only [Bool.and_eq_true]
    exact ⟨h c (List.mem_cons_self c cs),
      okTail_of_digits cs fun d hd => h d (List.mem_cons_of_mem c hd)⟩

lemma filter_of_digits {l : List Char} (h : ∀ c ∈ l, c.isDigit = true) :
    l.filter (fun c => c != '_') = l := by
  rw [List.filter_eq_self]
  intro c hc
  simp [(isDigit_not_special (h c hc)).1]

lemma pythonInt_natDigits (n : Nat) : pythonInt (natDigits n) = some (n : Int) := by
  have hdig := natDigits_isDigit n
  unfold pythonInt
  rw [pyStrip_of_digits hdig]
  rcases hl : natDigits n with _ | ⟨c, rest⟩
  · exact absurd hl (natDigits_ne_nil n)
  · have hc : c.isDigit = true := by
      rw [hl] at hdig
      exact hdig c (List.mem_cons_self c rest)
    rw [pySigned,
      if_neg (isDigit_not_special hc).2.1, if_neg (isDigit_not_special hc).2.2.1, ← hl]
    unfold pyDigits
    rw [if_pos (okBody_of_digits (natDigits_ne_nil n) hdig)]
    rw [filter_of_digits hdig, digitsToNat_natDigits]
    rfl

/-! ### Lemmas about the OID grammar -/

lemma startswith_append (p l : List Char) : startswith (p ++ l) p = true := by
  induction p with
  | nil =>
    cases l with
    | nil => rfl
    | cons c cs => rfl
  | cons c cs ih => simp [startswith, ih]

lemma cons_suffix_ne_base (l : List Char) : BASE_OID ++ '.' :: l ≠ BASE_OID := by
  intro h
  have := congrArg List.length h
  simp at this

lemma drop_base_suffix (l : List Char) :
    (BASE_OID ++ '.' :: l).drop (BASE_OID.length + 1) = l := by
  have : BASE_OID ++ '.' :: l = (BASE_OID ++ ['.']) ++ l := by simp
  rw [this, show BASE_OID.length + 1 = (BASE_OID ++ ['.']).length by simp,
    List.drop_left]

/-! ### Lemmas about `get_next_ifidx` -/

lemma dropWhile_cons_false {α} {p : α → Bool} :
    ∀ {l : List α} {a : α} {rest : List α}, l.dropWhile p = a :: rest → p a = false := by
  intro l
  induction l with
  | nil => intro a rest h; simp [List.dropWhile] at h
  | cons x xs ih =>
    intro a rest h
    rw [List.dropWhile_cons] at h
    by_cases hx : p x
    · rw [if_pos hx] at h
      exact ih h
    · rw [if_neg hx] at h
      cases h
      simpa using hx

lemma getElem?_takeWhile_length {α} (p : α → Bool) :
    ∀ s : List α, s[(s.takeWhile p).length]? = (s.dropWhile p).head? := by
  intro s
  induction s with
  | nil => rfl
  | cons x xs ih =>
    by_cases hx : p x
    · rw [List.takeWhile_cons, List.dropWhile_cons, if_pos hx, if_pos hx,
        List.length_cons, List.getElem?_cons_succ]
      exact ih
    · rw [List.takeWhile_cons, List.dropWhile_cons, if_neg hx, if_neg hx,
        List.length_nil, List.getElem?_cons_zero, List.head?_cons]

lemma get_next_ifidx_eq_head (l : List Int) (i : Int) :
    get_next_ifidx l i =
      match ((pySorted l).dropWhile (fun y => decide (y ≤ i))).head? with
      | some v => .ok v
      | none => .error .indexError := by
  show (match (pySorted l)[bisect (pySorted l) i]? with
    | some v => (.ok v : Except PyErr Int)
    | none => .error .indexError) = _
  unfold bisect
  rw [getElem?_takeWhile_length]

/-- When some current index exceeds the probe, `get_next_ifidx` returns
the least such index. -/
lemma get_next_ifidx_ok (l : List Int) (i : Int) (hex : ∃ j ∈ l, i < j) :
    ∃ m, get_next_ifidx l i = .ok m ∧ m ∈ l ∧ i < m ∧
      ∀ j ∈ l, i < j → m ≤ j := by
  have hperm : (pySorted l).Perm l := List.perm_insertionSort _ l
  have hsort : List.Sorted (· ≤ ·) (pySorted l) := List.sorted_insertionSort _ l
  have hsplit : (pySorted l).takeWhile (fun y => decide (y ≤ i)) ++
      (pySorted l).dropWhile (fun y => decide (y ≤ i)) = pySorted l :=
    List.takeWhile_append_dropWhile _ _
  cases hd : (pySorted l).dropWhile (fun y => decide (y ≤ i)) with
  | nil =>
    exfalso
    obtain ⟨j, hj, hij⟩ := hex
    have hjs : j ∈ pySorted l := hperm.mem_iff.mpr hj
    have := List.dropWhile_eq_nil_iff.mp hd j hjs
    simp at this
    omega
  | cons m rest =>
    have hmfalse : decide (m ≤ i) = false :=
      dropWhile_cons_false (p := fun y => decide (y ≤ i)) hd
    have him : i < m := by simpa using hmfalse
    have hmem_s : m ∈ pySorted l := by
      rw [← hsplit, hd]
      exact List.mem_append_right _ (List.mem_cons_self _ _)
    refine ⟨m, ?_, hperm.mem_iff.mp hmem_s, him, ?_⟩
    · rw [get_next_ifidx_eq_head, hd]
      rfl
    · intro j hj hij
      have hjs : j ∈ pySorted l := hperm.mem_iff.mpr hj
      rw [← hsplit] at hjs
      rcases List.mem_append.mp hjs with hjt | hjd
      · have := List.mem_takeWhile_imp hjt
        simp at this
        omega
      · rw [hd] at hjd
        rcases List.mem_cons.mp hjd with rfl | hjrest
        · exact le_refl _
        · have hpw : List.Pairwise (· ≤ ·) (m :: rest) := by
            rw [← hd]
            exact List.Pairwise.sublist (List.dropWhile_sublist _) hsort
          exact (List.pairwise_cons.mp hpw).1 j hjrest

/-- When no current index exceeds the probe, `get_next_ifidx` raises
`IndexError`. -/
lemma get_next_ifidx_none (l : List Int) (i : Int) (hall : ∀ j ∈ l, j ≤ i) :
    get_next_ifidx l i = .error .indexError := by
  rw [get_next_ifidx_eq_head]
  have hnil : (pySorted l).dropWhile (fun y => decide (y ≤ i)) = [] := by
    rw [List.dropWhile_eq_nil_iff]
    intro x hx
    exact decide_eq_true (hall x ((List.perm_insertionSort _ l).mem_iff.mp hx))
  rw [hnil]
  rfl

lemma oid_to_ifidx_suffix (s : List Char) :
    oid_to_ifidx (BASE_OID ++ '.' :: s) =
      match pythonInt s with
      | none => .error .valueError
      | some n => .ok n := by
  rw [oid_to_ifidx, if_neg (cons_suffix_ne_base s)]
  rw [show BASE_OID ++ '.' :: s = (BASE_OID ++ ['.']) ++ s by simp]
  rw [startswith_append (BASE_OID ++ ['.']) s]
  simp only [Bool.not_true, Bool.false_eq_true, if_false]
  rw [show ((BASE_OID ++ ['.']) ++ s) = BASE_OID ++ '.' :: s by simp, drop_base_suffix]

/-! ### Newline counting for the three-line reply -/

lemma newline_not_mem_natDigits (n : Nat) : '\n' ∉ natDigits n := by
  intro hmem
  have := natDigits_isDigit n '\n' hmem
  exact absurd this (by decide)

lemma count_newline_intRender (i : Int) : (intRender i).count '\n' = 0 := by
  unfold intRender
  by_cases hi : i < 0
  · rw [if_pos hi, List.count_cons]
    simp [List.count_eq_zero.mpr (newline_not_mem_natDigits _)]
  · rw [if_neg hi]
    exact List.count_eq_zero.mpr (newline_not_mem_natDigits _)

/-! ### The claims -/

/-- C1: for every snapshot of interface indices and every decoded probe
index `i` (the sentinel 0 and indices absent from the snapshot included),
`get_next_ifidx` returns the smallest index strictly greater than `i`
under integer order; when no index is strictly greater it raises the
no-next-element `IndexError`, which `handle` surfaces as the `NONE`
response. -/
theorem claim_C1_getnext_order (db : DB) (oid : List Char) (i : Int)
    (hstrip : pyRstrip oid = oid) (hdec : oid_to_ifidx oid = .ok i) :
    ((∃ j ∈ dbIndices db, i < j) →
      ∃ m, get_next_ifidx (dbIndices db) i = .ok m ∧ m ∈ dbIndices db ∧ i < m ∧
        ∀ j ∈ dbIndices db, i < j → m ≤ j) ∧
    ((∀ j ∈ dbIndices db, j ≤ i) →
      get_next_ifidx (dbIndices db) i = .error .indexError ∧
      ∀ rest, handle db "getnext".data (oid :: rest) = .ok ("NONE".data, rest)) := by
  refine ⟨get_next_ifidx_ok _ _, fun hall => ⟨get_next_ifidx_none _ _ hall, fun rest => ?_⟩⟩
  have h1 : handle db "getnext".data (oid :: rest) =
      .ok (catchPR (handle_getnext db (pyRstrip oid)), rest) := rfl
  rw [h1, hstrip]
  unfold handle_getnext
  rw [hdec]
  show Except.ok (catchPR ((get_next_ifidx (dbIndices db) i).bind (get_ifalias db)), rest) = _
  rw [get_next_ifidx_none _ _ hall]
  rfl

theorem claim_C1_getnext_order_witness :
    handle testDB "getnext".data [".1.3.6.1.2.1.31.1.1.1.18.4".data] =
      Except.ok ("NONE".data, []) :=
  ((claim_C1_getnext_order testDB ".1.3.6.1.2.1.31.1.1.1.18.4".data 4 rfl rfl).2
    (by decide)).2 []

/-- C2: decoding `BASE_OID` itself yields the sentinel 0, and decoding
`BASE_OID ++ "." ++ decimal(n)` yields `n` for every natural `n`. -/
theorem claim_C2_decode_roundtrip :
    oid_to_ifidx BASE_OID = .ok 0 ∧
    ∀ n : Nat, oid_to_ifidx (BASE_OID ++ '.' :: natDigits n) = .ok (n : Int) := by
  refine ⟨rfl, fun n => ?_⟩
  rw [oid_to_ifidx_suffix, pythonInt_natDigits]

/-- C3 counterexample: the suffix `-5` carries a negative sign, yet
`oid_to_ifidx` accepts it and returns the index `-5` instead of failing
with `MalformedOID`, because Python's `int()` accepts signed literals. -/
theorem claim_C3_counterexample :
    oid_to_ifidx ".1.3.6.1.2.1.31.1.1.1.18.-5".data = Except.ok (-5) := rfl

/-- C3 amended: for every input `BASE_OID ++ "." ++ s` whose suffix `s`
is rejected by Python's `int()` parse (embedded dots, alphabetic or other
garbage, empty suffix), decode fails with `MalformedOID`; but a suffix
that is an optionally signed decimal literal is accepted, a negative sign
yielding a negative index (e.g. `-5`). -/
theorem claim_C3_amended_suffix (s : List Char) (hs : pythonInt s = none) :
    oid_to_ifidx (BASE_OID ++ '.' :: s) = .error .valueError ∧
    oid_to_ifidx (BASE_OID ++ '.' :: "-5".data) = .ok (-5) := by
  refine ⟨?_, rfl⟩
  rw [oid_to_ifidx_suffix, hs]

theorem claim_C3_amended_suffix_witness :
    pythonInt "1.2".data = none ∧
    oid_to_ifidx (BASE_OID ++ '.' :: "1.2".data) = Except.error PyErr.valueError :=
  ⟨by decide, (claim_C3_amended_suffix "1.2".data (by decide)).1⟩

/-- C4: for the four known commands, the dispatch boundary turns exactly
the three per-request failures (`ValueError`, `IndexError`, `KeyError`)
of the dispatched handler into the `NONE` reply — `get`/`getnext` answer
`NONE` precisely when their handler failed, `PING`/`set` never fail — and
the fatal faults (unknown verb, exhausted argument stream) surface as
errors rather than being converted to any response. -/
theorem claim_C4_none_boundary (db : DB) (a b : List Char) (rest : List (List Char)) :
    (handle db "get".data (a :: rest) = .ok ("NONE".data, rest) ↔
      ∃ e : PyErr, handle_get db (pyRstrip a) = .error e) ∧
    (handle db "getnext".data (a :: rest) = .ok ("NONE".data, rest) ↔
      ∃ e : PyErr, handle_getnext db (pyRstrip a) = .error e) ∧
    handle db "PING".data rest = .ok ("PONG".data, rest) ∧
    handle db "set".data (a :: b :: rest) = .ok ("not-writable".data, rest) ∧
    handle db "bogus".data rest = .error (.unknownCommand "bogus".data) ∧
    handle db "get".data [] = .error .stopIterationInGenerator := by
  refine ⟨?_, ?_, rfl, rfl, rfl, rfl⟩
  · have h1 : handle db "get".data (a :: rest) =
        .ok (catchPR (handle_get db (pyRstrip a)), rest) := rfl
    rw [h1]
    constructor
    · intro h
      injection h with h'
      have h2 : catchPR (handle_get db (pyRstrip a)) = "NONE".data :=
        congrArg Prod.fst h'
      exact (catchPR_eq_NONE_iff (fun s hs => handle_get_ok_ne hs)).mp h2
    · rintro ⟨e, he⟩
      rw [he]
      rfl
  · have h1 : handle db "getnext".data (a :: rest) =
        .ok (catchPR (handle_getnext db (pyRstrip a)), rest) := rfl
    rw [h1]
    constructor
    · intro h
      injection h with h'
      have h2 : catchPR (handle_getnext db (pyRstrip a)) = "NONE".data :=
        congrArg Prod.fst h'
      exact (catchPR_eq_NONE_iff (fun s hs => handle_getnext_ok_ne hs)).mp h2
    · rintro ⟨e, he⟩
      rw [he]
      rfl

theorem claim_C4_none_boundary_witness :
    handle testDB "get".data ["garbage".data] = Except.ok ("NONE".data, []) :=
  (claim_C4_none_boundary testDB "garbage".data "x".data []).1.mpr ⟨.valueError, rfl⟩

/-- C5: a command token outside `PING`, `get`, `getnext`, `set` produces
no protocol response at all: dispatch fails with the fatal
unknown-command error (the `RuntimeError` of the source). -/
theorem claim_C5_unknown_command (db : DB) (args : List (List Char)) (cmd : List Char)
    (h1 : cmd ≠ "PING".data) (h2 : cmd ≠ "set".data) (h3 : cmd ≠ "get".data)
    (h4 : cmd ≠ "getnext".data) :
    handle db cmd args = .error (.unknownCommand cmd) ∧ arity cmd = none := by
  constructor
  · unfold handle
    rw [if_neg h1, if_neg h2, if_neg h3, if_neg h4]
  · unfold arity
    rw [if_neg h1, if_neg h2, if_neg h3, if_neg h4]

theorem claim_C5_unknown_command_witness :
    handle testDB "invalid".data [] = Except.error (Fatal.unknownCommand "invalid".data) ∧
    arity "invalid".data = none :=
  claim_C5_unknown_command testDB [] "invalid".data (by decide) (by decide) (by decide)
    (by decide)

/-- C6: the `set` command always answers exactly `not-writable` for any
OID, value, database and trailing stream; the handler never fails and
performs no lookup or mutation of the interface directory (its embedding
does not touch the database at all). -/
theorem claim_C6_set_rejected (db : DB) (oid value : List Char) (rest : List (List Char)) :
    handle_set oid value = .ok "not-writable".data ∧
    handle db "set".data (oid :: value :: rest) = .ok ("not-writable".data, rest) :=
  ⟨rfl, rfl⟩

/-- C7: a successful `get`/`getnext` reply (both route through
`get_ifalias`) is exactly the three text units — the resulting OID
`BASE_OID.index`, the literal tag `string`, and the alias — joined by the
two newline separators; an absent (`None`) or empty alias is normalised
to the empty string and still emitted as the (empty) third unit. -/
theorem claim_C7_reply_shape (db : DB) (ifidx : Int) (iface : Iface)
    (h : dbFind db ifidx = some iface) :
    get_ifalias db ifidx = .ok (BASE_OID ++ '.' :: intRender ifidx ++
      '\n' :: "string".data ++ '\n' :: iface.ifalias.getD []) ∧
    (iface.ifalias = none ∨ iface.ifalias = some [] → iface.ifalias.getD [] = []) ∧
    ((iface.ifalias.getD []).count '\n' = 0 →
      (BASE_OID ++ '.' :: intRender ifidx ++ '\n' :: "string".data ++
        '\n' :: iface.ifalias.getD []).count '\n' = 2) ∧
    (∀ oid s, handle_get db oid = .ok s → ∃ j, get_ifalias db j = .ok s) ∧
    (∀ oid s, handle_getnext db oid = .ok s → ∃ j, get_ifalias db j = .ok s) := by
  refine ⟨?_, ?_, ?_, ?_, ?_⟩
  · unfold get_ifalias
    rw [h]
  · rintro (ha | ha) <;> rw [ha] <;> rfl
  · intro ha
    have hb : BASE_OID.count '\n' = 0 := by decide
    have hstr : ("string".data).count '\n' = 0 := by decide
    have hir : (intRender ifidx).count '\n' = 0 := count_newline_intRender ifidx
    simp [List.count_append, List.count_cons, hb, hstr, hir, ha]
  · intro oid s hok
    unfold handle_get at hok
    obtain ⟨j, _, h2⟩ := except_bind_ok hok
    exact ⟨j, h2⟩
  · intro oid s hok
    unfold handle_getnext at hok
    obtain ⟨j, _, h2⟩ := except_bind_ok hok
    obtain ⟨k, _, h3⟩ := except_bind_ok h2
    exact ⟨k, h3⟩

theorem claim_C7_reply_shape_witness :
    get_ifalias (DB.mk [(7, ⟨7, none⟩)]) 7 =
      Except.ok (BASE_OID ++ '.' :: intRender 7 ++ '\n' :: "string".data ++
        '\n' :: (Option.getD none [])) :=
  (claim_C7_reply_shape (DB.mk [(7, ⟨7, none⟩)]) 7 ⟨7, none⟩ rfl).1

/-- C8: an input that is neither `BASE_OID` itself nor an extension of
`BASE_OID ++ "."` decodes to the `MalformedOID` failure (`ValueError`). -/
theorem claim_C8_decode_foreign (oid : List Char)
    (h1 : oid ≠ BASE_OID) (h2 : startswith oid (BASE_OID ++ ['.']) = false) :
    oid_to_ifidx oid = .error .valueError := by
  unfold oid_to_ifidx
  rw [if_neg h1, h2]
  rfl

theorem claim_C8_decode_foreign_witness :
    oid_to_ifidx ".1.3.6.1.2.1".data = Except.error PyErr.valueError :=
  claim_C8_decode_foreign ".1.3.6.1.2.1".data (by decide) (by decide)

/-- C9: dispatch consumes exactly as many stream elements as the
handler's declared arity (0 for `PING`, 1 for `get` and `getnext`, 2 for
`set`), applies `rstrip` to each consumed element before it reaches the
handler, and returns every further element unconsumed. -/
theorem claim_C9_arity_consumption (db : DB) (a b : List Char) :
    (arity "PING".data = some 0 ∧ arity "get".data = some 1 ∧
      arity "getnext".data = some 1 ∧ arity "set".data = some 2) ∧
    (∀ rest, handle db "PING".data rest = .ok ("PONG".data, rest)) ∧
    (∀ rest, handle db "get".data (a :: rest) =
      .ok (catchPR (handle_get db (pyRstrip a)), rest)) ∧
    (∀ rest, handle db "getnext".data (a :: rest) =
      .ok (catchPR (handle_getnext db (pyRstrip a)), rest)) ∧
    (∀ rest, handle db "set".data (a :: b :: rest) =
      .ok (catchPR (handle_set (pyRstrip a) (pyRstrip b)), rest)) ∧
    (∀ cmd args n, arity cmd = some n → n ≤ args.length →
      ∃ resp, handle db cmd args = .ok (resp, args.drop n)) := by
  refine ⟨⟨rfl, rfl, rfl, rfl⟩, fun rest => rfl, fun rest => rfl, fun rest => rfl,
    fun rest => rfl, ?_⟩
  intro cmd args n harity hlen
  by_cases h1 : cmd = "PING".data
  · subst h1
    rw [show arity "PING".data = some 0 from rfl] at harity
    injection harity with hn
    subst hn
    exact ⟨"PONG".data, rfl⟩
  by_cases h2 : cmd = "set".data
  · subst h2
    rw [show arity "set".data = some 2 from rfl] at harity
    injection harity with hn
    subst hn
    match args with
    | [] => simp at hlen
    | [x] => simp at hlen
    | x :: y :: rest => exact ⟨catchPR (handle_set (pyRstrip x) (pyRstrip y)), rfl⟩
  by_cases h3 : cmd = "get".data
  · subst h3
    rw [show arity "get".data = some 1 from rfl] at harity
    injection harity with hn
    subst hn
    match args with
    | [] => simp at hlen
    | x :: rest => exact ⟨catchPR (handle_get db (pyRstrip x)), rfl⟩
  by_cases h4 : cmd = "getnext".data
  · subst h4
    rw [show arity "getnext".data = some 1 from rfl] at harity
    injection harity with hn
    subst hn
    match args with
    | [] => simp at hlen
    | x :: rest => exact ⟨catchPR (handle_getnext db (pyRstrip x)), rfl⟩
  · unfold arity at harity
    rw [if_neg h1, if_neg h2, if_neg h3, if_neg h4] at harity
    exact Option.noConfusion harity

theorem claim_C9_arity_consumption_witness :
    ∃ resp, handle testDB "get".data [".1.3.6.1.2.1.31.1.1.1.18.1".data, "x".data] =
      Except.ok (resp, ["x".data]) :=
  (claim_C9_arity_consumption testDB "q".data "r".data).2.2.2.2.2
    "get".data [".1.3.6.1.2.1.31.1.1.1.18.1".data, "x".data] 1 rfl (by decide)

/-- C10: when the argument stream holds fewer elements than the
dispatched command's arity, dispatch yields no protocol response (not
`NONE`): the exhaustion is the fatal PEP-479 `RuntimeError`, which is not
among the three caught failure kinds and ends the loop. -/
theorem claim_C10_exhausted_args (db : DB) (cmd : List Char)
    (args : List (List Char)) (n : Nat)
    (harity : arity cmd = some n) (hlen : args.length < n) :
    handle db cmd args = .error .stopIterationInGenerator := by
  by_cases h1 : cmd = "PING".data
  · subst h1
    rw [show arity "PING".data = some 0 from rfl] at harity
    injection harity with hn
    omega
  by_cases h2 : cmd = "set".data
  · subst h2
    rw [show arity "set".data = some 2 from rfl] at harity
    injection harity with hn
    subst hn
    match args with
    | [] => rfl
    | [x] => rfl
    | x :: y :: rest =>
      simp at hlen
      omega
  by_cases h3 : cmd = "get".data
  · subst h3
    rw [show arity "get".data = some 1 from rfl] at harity
    injection harity with hn
    subst hn
    match args with
    | [] => rfl
    | x :: rest => simp at hlen
  by_cases h4 : cmd = "getnext".data
  · subst h4
    rw [show arity "getnext".data = some 1 from rfl] at harity
    injection harity with hn
    subst hn
    match args with
    | [] => rfl
    | x :: rest => simp at hlen
  · unfold arity at harity
    rw [if_neg h1, if_neg h2, if_neg h3, if_neg h4] at harity
    exact Option.noConfusion harity

theorem claim_C10_exhausted_args_witness :
    handle testDB "set".data ["x".data] = Except.error Fatal.stopIterationInGenerator :=
  claim_C10_exhausted_args testDB "set".data ["x".data] 2 rfl (by decide)
